import Mathlib

/-!
A shallow embedding of the plugin runtime of `draconisplusplus`
(`src/src/Lib/Core/PluginManager.cpp`, `src/src/Lib/Core/StaticPlugins.cpp`,
`src/include/Drac++/Core/Plugin.hpp`, `src/include/Drac++/Core/PluginManager.hpp`),
together with proofs about its registry, its type-indexed views and its
load/unload lifecycle.

The embedding fixes the non-Windows build (`PLUGIN_EXTENSION = ".so"`) with
`DRAC_ENABLE_PLUGINS` and `DRAC_PRECOMPILED_CONFIG` enabled, so both the static
and the dynamic loading branches of `PluginManager::loadPlugin` /
`PluginManager::unloadPlugin` are present.

Foreign code (a module's exported factory symbols and the behaviour of the
plugin instances it creates) is a parameter `Env` of every operation: a module
may lack either exported symbol, its create factory may return null, and a
plugin's `initialize` may succeed, return an error, or throw a C++ exception.
Calls into foreign code and the manual destroy/close steps are recorded in an
event trace so that theorems can speak about *which* deallocation path ran.

C++ heap pointers are modelled as natural numbers handed out by a
monotonically increasing allocation counter (`PMState.nextPtr`), so pointer
equality in the type-indexed views is exact and never suffers from reuse.
-/

namespace Draconis

/-- `DracErrorCode` (from `Utils/Error.hpp`): the error kinds the plugin
runtime uses (`NotFound`, `InternalError`, `NotSupported`, `ApiUnavailable`,
`Other`). -/
inductive DracErrorCode where
  | NotFound
  | InternalError
  | NotSupported
  | ApiUnavailable
  | Other
  deriving DecidableEq, Repr

/-- `DracError`: an error code plus a human-readable message. -/
structure DracError where
  code : DracErrorCode
  message : String
  deriving DecidableEq, Repr

/-- `PluginType` (from `Plugin.hpp`): the two plugin categories. -/
inductive PluginType where
  | SystemInfo
  | OutputFormat
  deriving DecidableEq, Repr

/-- `PluginDependencies` (from `Plugin.hpp`): four advisory flags. -/
structure PluginDependencies where
  requiresNetwork : Bool := false
  requiresFilesystem : Bool := false
  requiresAdmin : Bool := false
  requiresCaching : Bool := false
  deriving DecidableEq, Repr

/-- `PluginMetadata` (from `Plugin.hpp`). -/
structure PluginMetadata where
  name : String
  version : String
  author : String
  description : String
  type : PluginType
  dependencies : PluginDependencies
  deriving DecidableEq, Repr

/-- A C++ heap pointer, modelled as an allocation number. -/
abbrev Ptr := Nat

/-- Outcome of a manager operation or of a call into foreign plugin code:
success, a `Result` error, or a C++ exception propagating out uncaught. -/
inductive Outcome where
  | ok
  | err (e : DracError)
  | exn
  deriving DecidableEq, Repr

/-- Behaviour of one plugin instance's foreign lifecycle code: what its
`initialize(cache)` call does, what `isReady()` reports after a successful
`initialize`, and whether the `dynamic_cast` to the interface named by its
metadata `type` succeeds. -/
structure InstanceBehavior where
  initResult : Outcome
  readyAfterInit : Bool
  castOk : Bool
  deriving DecidableEq, Repr

/-- The observable content of one dynamic module file: which of the two ABI
symbols (`CreatePlugin` / `DestroyPlugin`) it exports, whether its create
factory returns null, and the metadata/behaviour of the instance it creates. -/
structure ModuleCode where
  hasCreate : Bool
  createReturnsNull : Bool
  hasDestroy : Bool
  metadata : PluginMetadata
  behavior : InstanceBehavior
  deriving DecidableEq, Repr

/-- `StaticPluginEntry` (from `StaticPlugins.hpp`): a name plus the behaviour
of the create/destroy factory pair registered for it. -/
structure StaticPluginEntry where
  name : String
  createReturnsNull : Bool
  metadata : PluginMetadata
  behavior : InstanceBehavior
  deriving DecidableEq, Repr

/-- One entry of a directory listing, as seen by `scanForPlugins`:
file stem, extension, and whether it is a regular file. -/
structure DirEntry where
  stem : String
  ext : String
  isRegularFile : Bool
  deriving DecidableEq, Repr

/-- The world outside the manager: the static plugin registry
(`GetStaticPlugins()`), the filesystem (`none` = the path does not exist or is
not a directory), and the dynamic loader (`none` = `dlopen` fails on that
path). -/
structure Env where
  staticPlugins : List StaticPluginEntry
  dirs : String → Option (List DirEntry)
  modules : String → Option ModuleCode

/-- `LoadedPlugin` (from `PluginManager.hpp`). `inst` models the owned
`instance` pointer (`instance` is reserved in Lean); `handle = none` models
the null module handle that marks a static plugin; `isInit` models the
`isInitialized` flag (that spelling is unavailable here). -/
structure LoadedPlugin where
  inst : Ptr
  handle : Option String
  path : String
  metadata : PluginMetadata
  isInit : Bool
  isReady : Bool
  isLoaded : Bool
  deriving DecidableEq, Repr

/-- The manager state: `m_plugins` (name-keyed registry of records, modelled
as an association list with unique keys), `m_discoveredPlugins` (name to
path), `m_pluginSearchPaths`, the two type-indexed views
(`m_systemInfoPlugins` / `m_outputFormatPlugins`, lists of raw instance
pointers), plus the ghost allocation counter. -/
structure PMState where
  plugins : List (String × LoadedPlugin)
  discoveredPlugins : List (String × String)
  pluginSearchPaths : List String
  systemInfoPlugins : List Ptr
  outputFormatPlugins : List Ptr
  nextPtr : Ptr
  deriving DecidableEq, Repr

/-- The freshly constructed manager. -/
def initState : PMState :=
  { plugins := []
    discoveredPlugins := []
    pluginSearchPaths := []
    systemInfoPlugins := []
    outputFormatPlugins := []
    nextPtr := 0 }

/-- Observable events of one manager operation: loader calls, foreign
lifecycle calls, and the three possible deallocation paths. -/
inductive Event where
  | dlopen (path : String)
  | dlclose (handle : String)
  | created (handle : String) (p : Ptr)
  | initCalled (p : Ptr)
  | shutdownCalled (p : Ptr)
  | destroyedViaModule (handle : String) (p : Ptr)
  | destroyedViaDelete (p : Ptr)
  | destroyedStatic (name : String) (p : Ptr)
  deriving DecidableEq, Repr

/-- Result of one manager operation: outcome, post-state, event trace. -/
structure OpRet where
  out : Outcome
  state : PMState
  trace : List Event
  deriving Repr

/-- Association-list lookup, the model of `map.contains`/`map.at`. -/
def alookup {β : Type} (l : List (String × β)) (k : String) : Option β :=
  (l.find? (fun kv => kv.1 == k)).map Prod.snd

/-- `map.emplace`: inserts only when the key is absent. -/
def emplace (l : List (String × LoadedPlugin)) (k : String) (v : LoadedPlugin) :
    List (String × LoadedPlugin) :=
  if (alookup l k).isSome then l else l ++ [(k, v)]

/-- `map.erase`: removes the entry with the given key. -/
def eraseKey (l : List (String × LoadedPlugin)) (k : String) :
    List (String × LoadedPlugin) :=
  l.filter (fun kv => kv.1 != k)

/-- `m_plugins.contains(name)` combined with `m_plugins.at(name)`. -/
def lookupRecord (s : PMState) (name : String) : Option LoadedPlugin :=
  alookup s.plugins name

/-- The test `m_plugins.contains(p) && m_plugins.at(p).isLoaded`, used both by
`loadPlugin`'s early return and by `isPluginLoaded`. -/
def containsLoadedRecord (s : PMState) (name : String) : Bool :=
  match lookupRecord s name with
  | some lp => lp.isLoaded
  | none => false

/-- `PluginManager::isPluginLoaded`. -/
def isPluginLoaded (s : PMState) (name : String) : Bool :=
  containsLoadedRecord s name

/-- `IsStaticPlugin` (from `StaticPlugins.cpp`): any registered entry has the
name. -/
def IsStaticPlugin (entries : List StaticPluginEntry) (name : String) : Bool :=
  entries.any (fun e => e.name == name)

/-- Platform module-file extension for the modelled (Linux) build. -/
def PLUGIN_EXTENSION : String := ".so"

/-- `PluginManager::addSearchPath`: append only if not already present. -/
def addSearchPath (s : PMState) (path : String) : PMState :=
  if path ∈ s.pluginSearchPaths then s
  else { s with pluginSearchPaths := s.pluginSearchPaths ++ [path] }

/-- One directory pass of `scanForPlugins`: for every regular file with the
plugin extension, record `stem ↦ full path` unless that stem is already
present (first discovery of a name wins). -/
def scanDir (dir : String) (entries : List DirEntry)
    (acc : List (String × String)) : List (String × String) :=
  entries.foldl
    (fun acc e =>
      if e.isRegularFile && e.ext == PLUGIN_EXTENSION then
        if (alookup acc e.stem).isSome then acc
        else acc ++ [(e.stem, dir ++ "/" ++ e.stem ++ e.ext)]
      else acc)
    acc

/-- `PluginManager::scanForPlugins`: clear the discovered map, then walk the
search paths in registration order (skipping non-directories). -/
def scanForPlugins (env : Env) (s : PMState) : PMState :=
  { s with
    discoveredPlugins :=
      s.pluginSearchPaths.foldl
        (fun acc p =>
          match env.dirs p with
          | none => acc
          | some entries => scanDir p entries acc)
        [] }

/-- `PluginManager::initializePluginInstance` (that spelling is unavailable
here): early-return when `isInitialized` is already set; otherwise call the
foreign `initialize(cacheWrapper)`.  A thrown exception propagates (there is
no try/catch in the source); an error result clears `isReady` and propagates;
success sets the initialized flag and samples `instance->isReady()`. -/
def initPluginInstance (lp : LoadedPlugin) (beh : InstanceBehavior) :
    Outcome × LoadedPlugin × List Event :=
  if lp.isInit then (Outcome.ok, lp, [])
  else
    match beh.initResult with
    | Outcome.exn => (Outcome.exn, lp, [Event.initCalled lp.inst])
    | Outcome.err e =>
        (Outcome.err e, { lp with isReady := false }, [Event.initCalled lp.inst])
    | Outcome.ok =>
        (Outcome.ok,
         { lp with isInit := true, isReady := beh.readyAfterInit },
         [Event.initCalled lp.inst])

/-- The tail `loadPlugin` shares between its static and dynamic branches:
drive initialization, then on success push the instance into the view matching
its metadata type (when ready and the `dynamic_cast` succeeds), and finally
`emplace` the record.  If `initialize` returned an error the record is still
emplaced and the error propagates; if it threw, the exception unwinds out of
`loadPlugin`: nothing is emplaced and the local record's `unique_ptr` frees
the instance with the host's `delete` (and, in the dynamic case, the module
handle is leaked, not closed). -/
def finishLoad (s : PMState) (pluginName : String) (lp : LoadedPlugin)
    (beh : InstanceBehavior) (tr : List Event) : OpRet :=
  match initPluginInstance lp beh with
  | (Outcome.exn, _, tri) =>
      ⟨Outcome.exn, s, tr ++ tri ++ [Event.destroyedViaDelete lp.inst]⟩
  | (Outcome.err e, lp', tri) =>
      ⟨Outcome.err e, { s with plugins := emplace s.plugins pluginName lp' }, tr ++ tri⟩
  | (Outcome.ok, lp', tri) =>
      let s' :=
        if lp'.isReady then
          match lp'.metadata.type with
          | PluginType.SystemInfo =>
              if beh.castOk then
                { s with systemInfoPlugins := s.systemInfoPlugins ++ [lp'.inst] }
              else s
          | PluginType.OutputFormat =>
              if beh.castOk then
                { s with outputFormatPlugins := s.outputFormatPlugins ++ [lp'.inst] }
              else s
        else s
      ⟨Outcome.ok, { s' with plugins := emplace s'.plugins pluginName lp' }, tr ++ tri⟩

/-- The `DRAC_PRECOMPILED_CONFIG` branch of `loadPlugin`: `CreateStaticPlugin`
returns the first registered entry's factory result (null when the factory
returns null); a null instance fails with `InternalError`; otherwise the
record is built with the `<static>` sentinel path and a null module handle. -/
def loadStaticBranch (env : Env) (s : PMState) (pluginName : String) : OpRet :=
  match env.staticPlugins.find? (fun e => e.name == pluginName) with
  | none =>
      ⟨Outcome.err
        ⟨DracErrorCode.InternalError,
         "Failed to create static plugin instance for '" ++ pluginName ++ "'"⟩,
       s, []⟩
  | some entry =>
      if entry.createReturnsNull then
        ⟨Outcome.err
          ⟨DracErrorCode.InternalError,
           "Failed to create static plugin instance for '" ++ pluginName ++ "'"⟩,
         s, []⟩
      else
        let ptr := s.nextPtr
        let lp : LoadedPlugin :=
          { inst := ptr
            handle := none
            path := "<static>"
            metadata := entry.metadata
            isInit := false
            isReady := false
            isLoaded := true }
        finishLoad { s with nextPtr := ptr + 1 } pluginName lp entry.behavior []

/-- The dynamic branch of `loadPlugin`: `dlopen` the discovered path, resolve
`CreatePlugin` (closing the library again on failure), call the factory
(closing the library when it returns null), then hand over to the shared
tail. -/
def loadDynamicBranch (env : Env) (s : PMState) (pluginName : String)
    (pluginPath : String) : OpRet :=
  match env.modules pluginPath with
  | none =>
      ⟨Outcome.err
        ⟨DracErrorCode.InternalError,
         "Failed to load shared library '" ++ pluginPath ++ "'"⟩,
       s, [Event.dlopen pluginPath]⟩
  | some mc =>
      if !mc.hasCreate then
        ⟨Outcome.err
          ⟨DracErrorCode.InternalError,
           "Failed to find 'CreatePlugin' function in plugin."⟩,
         s, [Event.dlopen pluginPath, Event.dlclose pluginPath]⟩
      else if mc.createReturnsNull then
        ⟨Outcome.err
          ⟨DracErrorCode.InternalError,
           "Failed to create instance for plugin '" ++ pluginName ++ "'"⟩,
         s, [Event.dlopen pluginPath, Event.dlclose pluginPath]⟩
      else
        let ptr := s.nextPtr
        let lp : LoadedPlugin :=
          { inst := ptr
            handle := some pluginPath
            path := pluginPath
            metadata := mc.metadata
            isInit := false
            isReady := false
            isLoaded := true }
        finishLoad { s with nextPtr := ptr + 1 } pluginName lp mc.behavior
          [Event.dlopen pluginPath, Event.created pluginPath ptr]

/-- `PluginManager::loadPlugin`: early success when a loaded record exists;
then the static registry; then the discovered-path map (`NotFound` when the
name was never discovered); then dynamic loading. -/
def loadPlugin (env : Env) (s : PMState) (pluginName : String) : OpRet :=
  if containsLoadedRecord s pluginName then ⟨Outcome.ok, s, []⟩
  else if IsStaticPlugin env.staticPlugins pluginName then
    loadStaticBranch env s pluginName
  else
    match alookup s.discoveredPlugins pluginName with
    | none =>
        ⟨Outcome.err
          ⟨DracErrorCode.NotFound,
           "Plugin '" ++ pluginName ++ "' not found in search paths."⟩,
         s, []⟩
    | some pluginPath => loadDynamicBranch env s pluginName pluginPath

/-- `DestroyStaticPlugin` (from `StaticPlugins.cpp`): with a non-null
instance, run the destroy factory of the first entry carrying the name; when
no entry matches, silently do nothing. -/
def destroyStaticEvents (entries : List StaticPluginEntry) (name : String)
    (p : Ptr) : List Event :=
  match entries.find? (fun e => e.name == name) with
  | some _ => [Event.destroyedStatic name p]
  | none => []

/-- `PluginManager::unloadPlugin`: `NotFound` when no record exists; else
shut the instance down when ready, clear it from the view matching its
metadata type, destroy it (static destroy factory for a null handle; the
module's `DestroyPlugin` when resolvable, the host's generic `delete`
otherwise), close a dynamic handle, and erase the record.  Every found record
is erased and the call reports success even when `DestroyPlugin` was
missing. -/
def unloadPlugin (env : Env) (s : PMState) (pluginName : String) : OpRet :=
  match lookupRecord s pluginName with
  | none =>
      ⟨Outcome.err
        ⟨DracErrorCode.NotFound, "Plugin '" ++ pluginName ++ "' is not loaded."⟩,
       s, []⟩
  | some lp =>
      let tr1 := if lp.isReady then [Event.shutdownCalled lp.inst] else []
      let s1 :=
        match lp.metadata.type with
        | PluginType.SystemInfo =>
            { s with systemInfoPlugins :=
                s.systemInfoPlugins.filter (fun p => p != lp.inst) }
        | PluginType.OutputFormat =>
            { s with outputFormatPlugins :=
                s.outputFormatPlugins.filter (fun p => p != lp.inst) }
      match lp.handle with
      | none =>
          ⟨Outcome.ok,
           { s1 with plugins := eraseKey s1.plugins pluginName },
           tr1 ++ destroyStaticEvents env.staticPlugins pluginName lp.inst⟩
      | some h =>
          let destroyTr :=
            match env.modules h with
            | some mc =>
                if mc.hasDestroy then [Event.destroyedViaModule h lp.inst]
                else [Event.destroyedViaDelete lp.inst]
            | none => [Event.destroyedViaDelete lp.inst]
          ⟨Outcome.ok,
           { s1 with plugins := eraseKey s1.plugins pluginName },
           tr1 ++ destroyTr ++ [Event.dlclose h]⟩

/-- `PluginManager::getPlugin`: the record's raw instance pointer, with no
regard to its flags. -/
def getPlugin (s : PMState) (name : String) : Option Ptr :=
  (lookupRecord s name).map (fun lp => lp.inst)

/-- `PluginManager::getSystemInfoPlugins`. -/
def getSystemInfoPlugins (s : PMState) : List Ptr :=
  s.systemInfoPlugins

/-- The header's `getInfoProviderPlugins` name for the same view. -/
def getInfoProviderPlugins (s : PMState) : List Ptr :=
  getSystemInfoPlugins s

/-- `PluginManager::getOutputFormatPlugins`. -/
def getOutputFormatPlugins (s : PMState) : List Ptr :=
  s.outputFormatPlugins

/-- Ordered insertion by metadata name, realising `std::ranges::sort` with the
`metaA.name < metaB.name` comparator. -/
def insertByName (m : PluginMetadata) :
    List PluginMetadata → List PluginMetadata
  | [] => [m]
  | x :: xs => if m.name < x.name then m :: x :: xs else x :: insertByName m xs

/-- Insertion sort by metadata name. -/
def sortByName : List PluginMetadata → List PluginMetadata
  | [] => []
  | x :: xs => insertByName x (sortByName xs)

/-- `PluginManager::listLoadedPlugins`: the metadata of every record with
`isLoaded`, sorted by name. -/
def listLoadedPlugins (s : PMState) : List PluginMetadata :=
  sortByName ((s.plugins.filter (fun kv => kv.2.isLoaded)).map
    (fun kv => kv.2.metadata))

/-- The operations of the lifecycle state machine a host can drive. -/
inductive Op where
  | load (name : String)
  | unload (name : String)
  | addPath (path : String)
  | scan
  deriving DecidableEq, Repr

/-- One step of the manager. -/
def applyOp (env : Env) (s : PMState) : Op → PMState
  | Op.load n => (loadPlugin env s n).state
  | Op.unload n => (unloadPlugin env s n).state
  | Op.addPath p => addSearchPath s p
  | Op.scan => scanForPlugins env s

/-- States reachable from the fresh manager by any call sequence. -/
inductive Reachable (env : Env) : PMState → Prop where
  | init : Reachable env initState
  | step : ∀ s op, Reachable env s → Reachable env (applyOp env s op)

/-! ### Association-list lemmas -/

theorem alookup_nil {β : Type} (k : String) : alookup ([] : List (String × β)) k = none := rfl

theorem alookup_cons {β : Type} (kv : String × β) (l : List (String × β)) (k : String) :
    alookup (kv :: l) k = if kv.1 == k then some kv.2 else alookup l k := by
  by_cases h : kv.1 == k <;> simp [alookup, List.find?_cons, h]

theorem alookup_append {β : Type} (l₁ l₂ : List (String × β)) (k : String) :
    alookup (l₁ ++ l₂) k =
      match alookup l₁ k with
      | some v => some v
      | none => alookup l₂ k := by
  induction l₁ with
  | nil => simp [alookup_nil]
  | cons kv l ih =>
      by_cases h : kv.1 == k <;> simp [alookup_cons, h, ih]

theorem mem_of_alookup_eq_some {β : Type} {l : List (String × β)} {k : String} {v : β}
    (h : alookup l k = some v) : (k, v) ∈ l := by
  unfold alookup at h
  cases hf : l.find? (fun kv => kv.1 == k) with
  | none => rw [hf] at h; simp at h
  | some kv₀ =>
      rw [hf] at h
      have hp := List.find?_some hf
      have hm : kv₀ ∈ l := List.mem_of_find?_eq_some hf
      have hk : kv₀.1 = k := by simpa using hp
      cases kv₀ with
      | mk a b =>
          simp only [Option.map, Option.bind] at h
          cases h
          cases hk
          exact hm

theorem alookup_eq_none_iff {β : Type} {l : List (String × β)} {k : String} :
    alookup l k = none ↔ ∀ kv ∈ l, kv.1 ≠ k := by
  induction l with
  | nil => simp [alookup_nil]
  | cons kv l ih =>
      rw [alookup_cons]
      by_cases hk : (kv.1 == k) = true
      · simp only [hk, if_pos]
        constructor
        · intro h; cases h
        · intro h
          exact absurd (show kv.1 = k by simpa using hk)
            (h kv (List.mem_cons_self kv l))
      · simp only [Bool.not_eq_true] at hk
        simp only [hk, Bool.false_eq_true, if_neg, not_false_eq_true]
        rw [ih]
        constructor
        · intro h kv₂ hkv₂
          rcases List.mem_cons.mp hkv₂ with he | hm
          · subst he; simpa using hk
          · exact h kv₂ hm
        · intro h kv₂ hm
          exact h kv₂ (List.mem_cons_of_mem kv hm)

theorem alookup_eq_some_of_mem_nodupKeys {β : Type} {l : List (String × β)}
    {k : String} {v : β} (hn : (l.map Prod.fst).Nodup) (hm : (k, v) ∈ l) :
    alookup l k = some v := by
  induction l with
  | nil => simp at hm
  | cons kv l ih =>
      simp only [List.map_cons, List.nodup_cons] at hn
      rcases List.mem_cons.mp hm with he | hmem
      · rw [← he]; simp [alookup_cons]
      · rw [alookup_cons]
        have hk : kv.1 ≠ k := by
          intro he₂
          exact hn.1 (by
            rw [he₂]
            exact List.mem_map.mpr ⟨(k, v), hmem, rfl⟩)
        simp only [show (kv.1 == k) = false by simpa using hk,
          Bool.false_eq_true, if_neg, not_false_eq_true]
        exact ih hn.2 hmem

theorem value_unique_of_nodupKeys {β : Type} {l : List (String × β)}
    {k : String} {v₁ v₂ : β} (hn : (l.map Prod.fst).Nodup)
    (h₁ : (k, v₁) ∈ l) (h₂ : (k, v₂) ∈ l) : v₁ = v₂ := by
  have e₁ := alookup_eq_some_of_mem_nodupKeys hn h₁
  have e₂ := alookup_eq_some_of_mem_nodupKeys hn h₂
  rw [e₁] at e₂
  exact Option.some.inj e₂

theorem emplace_of_absent {l : List (String × LoadedPlugin)} {k : String}
    (h : alookup l k = none) (v : LoadedPlugin) : emplace l k v = l ++ [(k, v)] := by
  simp [emplace, h]

theorem mem_eraseKey {l : List (String × LoadedPlugin)} {k : String}
    {kv : String × LoadedPlugin} :
    kv ∈ eraseKey l k ↔ kv ∈ l ∧ kv.1 ≠ k := by
  simp [eraseKey, List.mem_filter, bne_iff_ne]

theorem alookup_eraseKey_self (l : List (String × LoadedPlugin)) (k : String) :
    alookup (eraseKey l k) k = none := by
  rw [alookup_eq_none_iff]
  intro kv hkv
  exact (mem_eraseKey.mp hkv).2

theorem nodup_append_singleton {α : Type} {l : List α} {a : α}
    (h : l.Nodup) (ha : a ∉ l) : (l ++ [a]).Nodup := by
  simp [List.nodup_append, h, ha]

/-! ### The registry/view invariant -/

/-- Well-formedness of a manager state: registry keys are unique, instance
pointers are distinct and below the allocation counter, every record carries
`isLoaded`, and each type-indexed view only holds the instance pointer of a
currently ready record of the matching metadata type. -/
structure Wf (s : PMState) : Prop where
  keysNodup : (s.plugins.map Prod.fst).Nodup
  instNodup : (s.plugins.map (fun kv => kv.2.inst)).Nodup
  instLt : ∀ kv ∈ s.plugins, kv.2.inst < s.nextPtr
  loaded : ∀ kv ∈ s.plugins, kv.2.isLoaded = true
  sysView : ∀ p ∈ s.systemInfoPlugins, ∃ kv ∈ s.plugins,
      kv.2.inst = p ∧ kv.2.isReady = true ∧ kv.2.metadata.type = PluginType.SystemInfo
  outView : ∀ p ∈ s.outputFormatPlugins, ∃ kv ∈ s.plugins,
      kv.2.inst = p ∧ kv.2.isReady = true ∧ kv.2.metadata.type = PluginType.OutputFormat

theorem Wf_initState : Wf initState := by
  refine ⟨?_, ?_, ?_, ?_, ?_, ?_⟩ <;> simp [initState]

theorem Wf_addSearchPath (s : PMState) (p : String) (h : Wf s) :
    Wf (addSearchPath s p) := by
  unfold addSearchPath
  split
  · exact h
  · exact ⟨h.keysNodup, h.instNodup, h.instLt, h.loaded, h.sysView, h.outView⟩

theorem Wf_scanForPlugins (env : Env) (s : PMState) (h : Wf s) :
    Wf (scanForPlugins env s) :=
  ⟨h.keysNodup, h.instNodup, h.instLt, h.loaded, h.sysView, h.outView⟩

theorem Wf_bumpPtr (s : PMState) (h : Wf s) :
    Wf { s with nextPtr := s.nextPtr + 1 } := by
  refine ⟨h.keysNodup, h.instNodup, ?_, h.loaded, h.sysView, h.outView⟩
  intro kv hkv
  exact Nat.lt_succ_of_lt (h.instLt kv hkv)

theorem notMemKeys_of_alookup_none {l : List (String × LoadedPlugin)} {k : String}
    (h : alookup l k = none) : k ∉ l.map Prod.fst := by
  intro hm
  rcases List.mem_map.mp hm with ⟨kv, hkv, he⟩
  exact (alookup_eq_none_iff.mp h kv hkv) he

theorem Wf_emplaceRecord (s : PMState) (n : String) (lp : LoadedPlugin)
    (hWf : Wf s)
    (habs : alookup s.plugins n = none)
    (hfresh : ∀ kv ∈ s.plugins, kv.2.inst ≠ lp.inst)
    (hlt : lp.inst < s.nextPtr)
    (hl : lp.isLoaded = true) :
    Wf { s with plugins := emplace s.plugins n lp } := by
  rw [emplace_of_absent habs]
  refine ⟨?_, ?_, ?_, ?_, ?_, ?_⟩
  · simp only [List.map_append, List.map_cons, List.map_nil]
    exact nodup_append_singleton hWf.keysNodup (notMemKeys_of_alookup_none habs)
  · simp only [List.map_append, List.map_cons, List.map_nil]
    refine nodup_append_singleton hWf.instNodup ?_
    intro hm
    rcases List.mem_map.mp hm with ⟨kv, hkv, he⟩
    exact hfresh kv hkv he
  · intro kv hkv
    rcases List.mem_append.mp hkv with hm | hm
    · exact hWf.instLt kv hm
    · simp only [List.mem_singleton] at hm
      subst hm
      exact hlt
  · intro kv hkv
    rcases List.mem_append.mp hkv with hm | hm
    · exact hWf.loaded kv hm
    · simp only [List.mem_singleton] at hm
      subst hm
      exact hl
  · intro p hp
    rcases hWf.sysView p hp with ⟨kv, hkv, hrest⟩
    exact ⟨kv, List.mem_append_left _ hkv, hrest⟩
  · intro p hp
    rcases hWf.outView p hp with ⟨kv, hkv, hrest⟩
    exact ⟨kv, List.mem_append_left _ hkv, hrest⟩

theorem Wf_emplaceRecord_pushSys (s : PMState) (n : String) (lp : LoadedPlugin)
    (hWf : Wf s)
    (habs : alookup s.plugins n = none)
    (hfresh : ∀ kv ∈ s.plugins, kv.2.inst ≠ lp.inst)
    (hlt : lp.inst < s.nextPtr)
    (hl : lp.isLoaded = true)
    (hready : lp.isReady = true)
    (htype : lp.metadata.type = PluginType.SystemInfo) :
    Wf { s with plugins := emplace s.plugins n lp,
                systemInfoPlugins := s.systemInfoPlugins ++ [lp.inst] } := by
  have base := Wf_emplaceRecord s n lp hWf habs hfresh hlt hl
  refine ⟨base.keysNodup, base.instNodup, base.instLt, base.loaded, ?_, base.outView⟩
  intro p hp
  rcases List.mem_append.mp hp with hm | hm
  · exact base.sysView p hm
  · simp only [List.mem_singleton] at hm
    subst hm
    refine ⟨(n, lp), ?_, rfl, hready, htype⟩
    rw [emplace_of_absent habs]
    exact List.mem_append_right _ (List.mem_singleton.mpr rfl)

theorem Wf_emplaceRecord_pushOut (s : PMState) (n : String) (lp : LoadedPlugin)
    (hWf : Wf s)
    (habs : alookup s.plugins n = none)
    (hfresh : ∀ kv ∈ s.plugins, kv.2.inst ≠ lp.inst)
    (hlt : lp.inst < s.nextPtr)
    (hl : lp.isLoaded = true)
    (hready : lp.isReady = true)
    (htype : lp.metadata.type = PluginType.OutputFormat) :
    Wf { s with plugins := emplace s.plugins n lp,
                outputFormatPlugins := s.outputFormatPlugins ++ [lp.inst] } := by
  have base := Wf_emplaceRecord s n lp hWf habs hfresh hlt hl
  refine ⟨base.keysNodup, base.instNodup, base.instLt, base.loaded, base.sysView, ?_⟩
  intro p hp
  rcases List.mem_append.mp hp with hm | hm
  · exact base.outView p hm
  · simp only [List.mem_singleton] at hm
    subst hm
    refine ⟨(n, lp), ?_, rfl, hready, htype⟩
    rw [emplace_of_absent habs]
    exact List.mem_append_right _ (List.mem_singleton.mpr rfl)

theorem initPI_exn (lp : LoadedPlugin) (beh : InstanceBehavior)
    (hinit : lp.isInit = false) (h : beh.initResult = Outcome.exn) :
    initPluginInstance lp beh = (Outcome.exn, lp, [Event.initCalled lp.inst]) := by
  simp [initPluginInstance, hinit, h]

theorem initPI_err (lp : LoadedPlugin) (beh : InstanceBehavior) (e : DracError)
    (hinit : lp.isInit = false) (h : beh.initResult = Outcome.err e) :
    initPluginInstance lp beh =
      (Outcome.err e, { lp with isReady := false }, [Event.initCalled lp.inst]) := by
  simp [initPluginInstance, hinit, h]

theorem initPI_ok (lp : LoadedPlugin) (beh : InstanceBehavior)
    (hinit : lp.isInit = false) (h : beh.initResult = Outcome.ok) :
    initPluginInstance lp beh =
      (Outcome.ok, { lp with isInit := true, isReady := beh.readyAfterInit },
       [Event.initCalled lp.inst]) := by
  simp [initPluginInstance, hinit, h]

theorem Wf_finishLoad (s : PMState) (n : String) (lp : LoadedPlugin)
    (beh : InstanceBehavior) (tr : List Event)
    (hWf : Wf s)
    (habs : alookup s.plugins n = none)
    (hfresh : ∀ kv ∈ s.plugins, kv.2.inst ≠ lp.inst)
    (hlt : lp.inst < s.nextPtr)
    (hl : lp.isLoaded = true)
    (hinit : lp.isInit = false) :
    Wf (finishLoad s n lp beh tr).state := by
  unfold finishLoad
  cases hres : beh.initResult with
  | exn =>
      rw [initPI_exn lp beh hinit hres]
      exact hWf
  | err e =>
      rw [initPI_err lp beh e hinit hres]
      exact Wf_emplaceRecord s n { lp with isReady := false } hWf habs hfresh hlt hl
  | ok =>
      rw [initPI_ok lp beh hinit hres]
      dsimp only []
      by_cases hr : beh.readyAfterInit = true
      · simp only [hr, if_true]
        cases htype : lp.metadata.type with
        | SystemInfo =>
            by_cases hc : beh.castOk = true
            · simp only [hc, if_true]
              exact Wf_emplaceRecord_pushSys s n
                { lp with isInit := true, isReady := true }
                hWf habs hfresh hlt hl rfl htype
            · simp only [Bool.not_eq_true] at hc
              simp only [hc, Bool.false_eq_true, if_false]
              exact Wf_emplaceRecord s n
                { lp with isInit := true, isReady := true }
                hWf habs hfresh hlt hl
        | OutputFormat =>
            by_cases hc : beh.castOk = true
            · simp only [hc, if_true]
              exact Wf_emplaceRecord_pushOut s n
                { lp with isInit := true, isReady := true }
                hWf habs hfresh hlt hl rfl htype
            · simp only [Bool.not_eq_true] at hc
              simp only [hc, Bool.false_eq_true, if_false]
              exact Wf_emplaceRecord s n
                { lp with isInit := true, isReady := true }
                hWf habs hfresh hlt hl
      · simp only [Bool.not_eq_true] at hr
        simp only [hr, Bool.false_eq_true, if_false]
        exact Wf_emplaceRecord s n
          { lp with isInit := true, isReady := false }
          hWf habs hfresh hlt hl

theorem absent_of_not_containsLoaded (s : PMState) (n : String) (hWf : Wf s)
    (hc : containsLoadedRecord s n = false) : alookup s.plugins n = none := by
  cases hl : alookup s.plugins n with
  | none => rfl
  | some lp =>
      exfalso
      have hld := hWf.loaded (n, lp) (mem_of_alookup_eq_some hl)
      unfold containsLoadedRecord lookupRecord at hc
      rw [hl] at hc
      dsimp only [] at hc
      rw [hld] at hc
      cases hc

theorem Wf_loadPlugin (env : Env) (s : PMState) (n : String) (hWf : Wf s) :
    Wf (loadPlugin env s n).state := by
  unfold loadPlugin
  by_cases hc : containsLoadedRecord s n = true
  · simp only [hc, if_true]
    exact hWf
  · simp only [Bool.not_eq_true] at hc
    simp only [hc, Bool.false_eq_true, if_false]
    have habs := absent_of_not_containsLoaded s n hWf hc
    by_cases hs : IsStaticPlugin env.staticPlugins n = true
    · simp only [hs, if_true]
      unfold loadStaticBranch
      cases hf : env.staticPlugins.find? (fun e => e.name == n) with
      | none => exact hWf
      | some entry =>
          by_cases hnull : entry.createReturnsNull = true
          · simp only [hnull, if_true]
            exact hWf
          · simp only [Bool.not_eq_true] at hnull
            simp only [hnull, Bool.false_eq_true, if_false]
            exact Wf_finishLoad _ n _ entry.behavior []
              (Wf_bumpPtr s hWf) habs
              (fun kv hkv => Nat.ne_of_lt (hWf.instLt kv hkv))
              (Nat.lt_succ_self _) rfl rfl
    · simp only [Bool.not_eq_true] at hs
      simp only [hs, Bool.false_eq_true, if_false]
      cases hd : alookup s.discoveredPlugins n with
      | none => exact hWf
      | some pluginPath =>
          dsimp only []
          unfold loadDynamicBranch
          cases hm : env.modules pluginPath with
          | none => exact hWf
          | some mc =>
              by_cases hcr : mc.hasCreate = true
              · simp only [hcr, Bool.not_true, Bool.false_eq_true, if_false]
                by_cases hnull : mc.createReturnsNull = true
                · simp only [hnull, if_true]
                  exact hWf
                · simp only [Bool.not_eq_true] at hnull
                  simp only [hnull, Bool.false_eq_true, if_false]
                  exact Wf_finishLoad _ n _ mc.behavior _
                    (Wf_bumpPtr s hWf) habs
                    (fun kv hkv => Nat.ne_of_lt (hWf.instLt kv hkv))
                    (Nat.lt_succ_self _) rfl rfl
              · simp only [Bool.not_eq_true] at hcr
                simp only [hcr, Bool.not_false, if_true]
                exact hWf

theorem Wf_eraseSys (s : PMState) (n : String) (lp : LoadedPlugin)
    (hWf : Wf s) (hl : alookup s.plugins n = some lp)
    (htype : lp.metadata.type = PluginType.SystemInfo) :
    Wf { s with plugins := eraseKey s.plugins n,
                systemInfoPlugins :=
                  s.systemInfoPlugins.filter (fun p => p != lp.inst) } := by
  have hmem : (n, lp) ∈ s.plugins := mem_of_alookup_eq_some hl
  refine ⟨?_, ?_, ?_, ?_, ?_, ?_⟩
  · exact ((List.filter_sublist _).map Prod.fst).nodup hWf.keysNodup
  · exact ((List.filter_sublist _).map
      (fun kv : String × LoadedPlugin => kv.2.inst)).nodup hWf.instNodup
  · intro kv hkv
    exact hWf.instLt kv (mem_eraseKey.mp hkv).1
  · intro kv hkv
    exact hWf.loaded kv (mem_eraseKey.mp hkv).1
  · intro p hp
    have hp₂ := List.mem_filter.mp hp
    have hne : p ≠ lp.inst := by simpa [bne_iff_ne] using hp₂.2
    rcases hWf.sysView p hp₂.1 with ⟨kv, hkv, hinst, hready, hty⟩
    refine ⟨kv, mem_eraseKey.mpr ⟨hkv, ?_⟩, hinst, hready, hty⟩
    intro he
    have : kv.2 = lp := by
      refine value_unique_of_nodupKeys hWf.keysNodup ?_ hmem
      have : (kv.1, kv.2) = kv := rfl
      rw [← he]
      simpa using hkv
    exact hne (by rw [← hinst, this])
  · intro p hp
    rcases hWf.outView p hp with ⟨kv, hkv, hinst, hready, hty⟩
    refine ⟨kv, mem_eraseKey.mpr ⟨hkv, ?_⟩, hinst, hready, hty⟩
    intro he
    have heq : kv.2 = lp := by
      refine value_unique_of_nodupKeys hWf.keysNodup ?_ hmem
      rw [← he]
      simpa using hkv
    rw [heq] at hty
    rw [htype] at hty
    cases hty

theorem Wf_eraseOut (s : PMState) (n : String) (lp : LoadedPlugin)
    (hWf : Wf s) (hl : alookup s.plugins n = some lp)
    (htype : lp.metadata.type = PluginType.OutputFormat) :
    Wf { s with plugins := eraseKey s.plugins n,
                outputFormatPlugins :=
                  s.outputFormatPlugins.filter (fun p => p != lp.inst) } := by
  have hmem : (n, lp) ∈ s.plugins := mem_of_alookup_eq_some hl
  refine ⟨?_, ?_, ?_, ?_, ?_, ?_⟩
  · exact ((List.filter_sublist _).map Prod.fst).nodup hWf.keysNodup
  · exact ((List.filter_sublist _).map
      (fun kv : String × LoadedPlugin => kv.2.inst)).nodup hWf.instNodup
  · intro kv hkv
    exact hWf.instLt kv (mem_eraseKey.mp hkv).1
  · intro kv hkv
    exact hWf.loaded kv (mem_eraseKey.mp hkv).1
  · intro p hp
    rcases hWf.sysView p hp with ⟨kv, hkv, hinst, hready, hty⟩
    refine ⟨kv, mem_eraseKey.mpr ⟨hkv, ?_⟩, hinst, hready, hty⟩
    intro he
    have heq : kv.2 = lp := by
      refine value_unique_of_nodupKeys hWf.keysNodup ?_ hmem
      rw [← he]
      simpa using hkv
    rw [heq] at hty
    rw [htype] at hty
    cases hty
  · intro p hp
    have hp₂ := List.mem_filter.mp hp
    have hne : p ≠ lp.inst := by simpa [bne_iff_ne] using hp₂.2
    rcases hWf.outView p hp₂.1 with ⟨kv, hkv, hinst, hready, hty⟩
    refine ⟨kv, mem_eraseKey.mpr ⟨hkv, ?_⟩, hinst, hready, hty⟩
    intro he
    have : kv.2 = lp := by
      refine value_unique_of_nodupKeys hWf.keysNodup ?_ hmem
      rw [← he]
      simpa using hkv
    exact hne (by rw [← hinst, this])

theorem Wf_unloadPlugin (env : Env) (s : PMState) (n : String) (hWf : Wf s) :
    Wf (unloadPlugin env s n).state := by
  unfold unloadPlugin lookupRecord
  cases hl : alookup s.plugins n with
  | none => exact hWf
  | some lp =>
      dsimp only []
      cases htype : lp.metadata.type with
      | SystemInfo =>
          cases hh : lp.handle with
          | none => exact Wf_eraseSys s n lp hWf hl htype
          | some h => exact Wf_eraseSys s n lp hWf hl htype
      | OutputFormat =>
          cases hh : lp.handle with
          | none => exact Wf_eraseOut s n lp hWf hl htype
          | some h => exact Wf_eraseOut s n lp hWf hl htype

theorem Wf_applyOp (env : Env) (s : PMState) (op : Op) (h : Wf s) :
    Wf (applyOp env s op) := by
  cases op with
  | load n => exact Wf_loadPlugin env s n h
  | unload n => exact Wf_unloadPlugin env s n h
  | addPath p => exact Wf_addSearchPath s p h
  | scan => exact Wf_scanForPlugins env s h

theorem Wf_reachable (env : Env) (s : PMState) (h : Reachable env s) : Wf s := by
  induction h with
  | init => exact Wf_initState
  | step s op _ ih => exact Wf_applyOp env s op ih

/-! ### Branch characterizations -/

theorem alookup_emplace_self {l : List (String × LoadedPlugin)} {k : String}
    (h : alookup l k = none) (v : LoadedPlugin) :
    alookup (emplace l k v) k = some v := by
  rw [emplace_of_absent h, alookup_append, h]
  simp [alookup_cons]

theorem inst_injective_of_nodup {l : List (String × LoadedPlugin)}
    (h : (l.map (fun kv => kv.2.inst)).Nodup) :
    ∀ kv₁ ∈ l, ∀ kv₂ ∈ l, kv₁.2.inst = kv₂.2.inst → kv₁ = kv₂ := by
  induction l with
  | nil => intro kv₁ h₁; simp at h₁
  | cons kv l ih =>
      simp only [List.map_cons, List.nodup_cons] at h
      intro kv₁ h₁ kv₂ h₂ he
      rcases List.mem_cons.mp h₁ with e₁ | m₁ <;> rcases List.mem_cons.mp h₂ with e₂ | m₂
      · rw [e₁, e₂]
      · exfalso
        apply h.1
        rw [e₁] at he
        exact List.mem_map.mpr ⟨kv₂, m₂, he.symm⟩
      · exfalso
        apply h.1
        rw [e₂] at he
        exact List.mem_map.mpr ⟨kv₁, m₁, he⟩
      · exact ih h.2 kv₁ m₁ kv₂ m₂ he

theorem loadPlugin_already (env : Env) (s : PMState) (n : String)
    (hc : containsLoadedRecord s n = true) :
    loadPlugin env s n = ⟨Outcome.ok, s, []⟩ := by
  simp [loadPlugin, hc]

theorem loadPlugin_notFoundCase (env : Env) (s : PMState) (n : String)
    (hc : containsLoadedRecord s n = false)
    (hs : IsStaticPlugin env.staticPlugins n = false)
    (hd : alookup s.discoveredPlugins n = none) :
    loadPlugin env s n =
      ⟨Outcome.err ⟨DracErrorCode.NotFound,
        "Plugin '" ++ n ++ "' not found in search paths."⟩, s, []⟩ := by
  simp [loadPlugin, hc, hs, hd]

theorem loadPlugin_dyn (env : Env) (s : PMState) (n : String) (path : String)
    (hc : containsLoadedRecord s n = false)
    (hs : IsStaticPlugin env.staticPlugins n = false)
    (hd : alookup s.discoveredPlugins n = some path) :
    loadPlugin env s n = loadDynamicBranch env s n path := by
  simp [loadPlugin, hc, hs, hd]

theorem loadDyn_dlopenFail (env : Env) (s : PMState) (n : String) (path : String)
    (hm : env.modules path = none) :
    loadDynamicBranch env s n path =
      ⟨Outcome.err ⟨DracErrorCode.InternalError,
        "Failed to load shared library '" ++ path ++ "'"⟩,
       s, [Event.dlopen path]⟩ := by
  simp [loadDynamicBranch, hm]

theorem loadDyn_noCreate (env : Env) (s : PMState) (n : String) (path : String)
    (mc : ModuleCode) (hm : env.modules path = some mc)
    (hcr : mc.hasCreate = false) :
    loadDynamicBranch env s n path =
      ⟨Outcome.err ⟨DracErrorCode.InternalError,
        "Failed to find 'CreatePlugin' function in plugin."⟩,
       s, [Event.dlopen path, Event.dlclose path]⟩ := by
  simp [loadDynamicBranch, hm, hcr]

theorem loadDyn_nullCreate (env : Env) (s : PMState) (n : String) (path : String)
    (mc : ModuleCode) (hm : env.modules path = some mc)
    (hcr : mc.hasCreate = true) (hnull : mc.createReturnsNull = true) :
    loadDynamicBranch env s n path =
      ⟨Outcome.err ⟨DracErrorCode.InternalError,
        "Failed to create instance for plugin '" ++ n ++ "'"⟩,
       s, [Event.dlopen path, Event.dlclose path]⟩ := by
  simp [loadDynamicBranch, hm, hcr, hnull]

/-- The record the dynamic branch builds right after a successful create. -/
def dynRecord (s : PMState) (path : String) (mc : ModuleCode) : LoadedPlugin :=
  { inst := s.nextPtr
    handle := some path
    path := path
    metadata := mc.metadata
    isInit := false
    isReady := false
    isLoaded := true }

theorem loadDyn_create (env : Env) (s : PMState) (n : String) (path : String)
    (mc : ModuleCode) (hm : env.modules path = some mc)
    (hcr : mc.hasCreate = true) (hnull : mc.createReturnsNull = false) :
    loadDynamicBranch env s n path =
      finishLoad { s with nextPtr := s.nextPtr + 1 } n (dynRecord s path mc)
        mc.behavior [Event.dlopen path, Event.created path s.nextPtr] := by
  simp [loadDynamicBranch, hm, hcr, hnull, dynRecord]

theorem finishLoad_exn (s : PMState) (n : String) (lp : LoadedPlugin)
    (beh : InstanceBehavior) (tr : List Event)
    (hinit : lp.isInit = false) (h : beh.initResult = Outcome.exn) :
    finishLoad s n lp beh tr =
      ⟨Outcome.exn, s,
       tr ++ [Event.initCalled lp.inst] ++ [Event.destroyedViaDelete lp.inst]⟩ := by
  unfold finishLoad
  rw [initPI_exn lp beh hinit h]

theorem finishLoad_err (s : PMState) (n : String) (lp : LoadedPlugin)
    (beh : InstanceBehavior) (tr : List Event) (e : DracError)
    (hinit : lp.isInit = false) (h : beh.initResult = Outcome.err e) :
    finishLoad s n lp beh tr =
      ⟨Outcome.err e,
       { s with plugins := emplace s.plugins n { lp with isReady := false } },
       tr ++ [Event.initCalled lp.inst]⟩ := by
  unfold finishLoad
  rw [initPI_err lp beh e hinit h]

theorem finishLoad_ok_out (s : PMState) (n : String) (lp : LoadedPlugin)
    (beh : InstanceBehavior) (tr : List Event)
    (hinit : lp.isInit = false) (h : beh.initResult = Outcome.ok) :
    (finishLoad s n lp beh tr).out = Outcome.ok := by
  unfold finishLoad
  rw [initPI_ok lp beh hinit h]

theorem finishLoad_ok_plugins (s : PMState) (n : String) (lp : LoadedPlugin)
    (beh : InstanceBehavior) (tr : List Event)
    (hinit : lp.isInit = false) (h : beh.initResult = Outcome.ok) :
    (finishLoad s n lp beh tr).state.plugins =
      emplace s.plugins n { lp with isInit := true, isReady := beh.readyAfterInit } := by
  unfold finishLoad
  rw [initPI_ok lp beh hinit h]
  dsimp only []
  split
  · split <;> split <;> rfl
  · rfl

theorem unloadPlugin_notFound (env : Env) (s : PMState) (n : String)
    (hl : lookupRecord s n = none) :
    unloadPlugin env s n =
      ⟨Outcome.err ⟨DracErrorCode.NotFound,
        "Plugin '" ++ n ++ "' is not loaded."⟩, s, []⟩ := by
  unfold unloadPlugin
  rw [hl]

theorem unloadPlugin_found (env : Env) (s : PMState) (n : String)
    (lp : LoadedPlugin) (hl : lookupRecord s n = some lp) :
    (unloadPlugin env s n).out = Outcome.ok ∧
    (unloadPlugin env s n).state.plugins = eraseKey s.plugins n := by
  unfold unloadPlugin
  rw [hl]
  dsimp only []
  cases htype : lp.metadata.type <;> cases hh : lp.handle <;> exact ⟨rfl, rfl⟩

/-! ### Scan characterization -/

/-- First directory entry of a listing that `scanForPlugins` would record for
the name `n`, together with the full path it would store. -/
def firstMatchIn (dir : String) (entries : List DirEntry) (n : String) :
    Option String :=
  (entries.find? (fun e =>
    (e.isRegularFile && e.ext == PLUGIN_EXTENSION) && e.stem == n)).map
    (fun e => dir ++ "/" ++ e.stem ++ e.ext)

/-- The path the whole scan records for `n`: the first matching entry over the
search paths in registration order. -/
def firstDiscovery (env : Env) (paths : List String) (n : String) :
    Option String :=
  match paths with
  | [] => none
  | p :: rest =>
      match env.dirs p with
      | none => firstDiscovery env rest n
      | some entries =>
          match firstMatchIn p entries n with
          | some v => some v
          | none => firstDiscovery env rest n

theorem scanDir_alookup (dir : String) (entries : List DirEntry) (n : String)
    (acc : List (String × String)) :
    alookup (scanDir dir entries acc) n =
      match alookup acc n with
      | some v => some v
      | none => firstMatchIn dir entries n := by
  induction entries generalizing acc with
  | nil => cases h : alookup acc n <;> simp [scanDir, firstMatchIn, h]
  | cons e es ih =>
      simp only [scanDir, List.foldl_cons] at *
      by_cases hmatch : (e.isRegularFile && e.ext == PLUGIN_EXTENSION) = true
      · by_cases hstem : (alookup acc e.stem).isSome = true
        · rw [if_pos hmatch, if_pos hstem, ih]
          cases h : alookup acc n with
          | some v => rfl
          | none =>
              have hne : (e.stem == n) = false := by
                rcases Option.isSome_iff_exists.mp hstem with ⟨v, hv⟩
                by_cases he : e.stem = n
                · rw [he] at hv; rw [hv] at h; cases h
                · simpa using he
              unfold firstMatchIn
              rw [List.find?_cons_of_neg]
              simp [hmatch, hne]
        · rw [if_pos hmatch, if_neg (by simpa using hstem), ih]
          rw [alookup_append]
          cases h : alookup acc n with
          | some v => rfl
          | none =>
              by_cases he : e.stem = n
              · subst he
                simp [alookup_cons, firstMatchIn, List.find?_cons, hmatch]
              · have hne : (e.stem == n) = false := by simpa using he
                simp [alookup_cons, alookup_nil, hne, firstMatchIn,
                  List.find?_cons, hmatch]
      · rw [if_neg hmatch, ih]
        cases h : alookup acc n with
        | some v => rfl
        | none =>
            unfold firstMatchIn
            rw [List.find?_cons_of_neg]
            simp only [Bool.not_eq_true] at hmatch
            simp [hmatch]

theorem scanPaths_alookup (env : Env) (paths : List String) (n : String)
    (acc : List (String × String)) :
    alookup
      (paths.foldl
        (fun acc p =>
          match env.dirs p with
          | none => acc
          | some entries => scanDir p entries acc)
        acc) n =
      match alookup acc n with
      | some v => some v
      | none => firstDiscovery env paths n := by
  induction paths generalizing acc with
  | nil => cases h : alookup acc n <;> simp [firstDiscovery, h]
  | cons p ps ih =>
      simp only [List.foldl_cons]
      cases hd : env.dirs p with
      | none =>
          rw [ih]
          cases h : alookup acc n <;> simp [firstDiscovery, hd, h]
      | some es =>
          rw [ih, scanDir_alookup]
          cases h : alookup acc n with
          | some v => rfl
          | none =>
              cases hf : firstMatchIn p es n <;>
                simp [firstDiscovery, hd, hf]

theorem scan_alookup (env : Env) (s : PMState) (n : String) :
    alookup (scanForPlugins env s).discoveredPlugins n =
      firstDiscovery env s.pluginSearchPaths n := by
  unfold scanForPlugins
  rw [scanPaths_alookup]
  rfl

theorem finishLoad_ok_trace (s : PMState) (n : String) (lp : LoadedPlugin)
    (beh : InstanceBehavior) (tr : List Event)
    (hinit : lp.isInit = false) (h : beh.initResult = Outcome.ok) :
    (finishLoad s n lp beh tr).trace = tr ++ [Event.initCalled lp.inst] := by
  unfold finishLoad
  rw [initPI_ok lp beh hinit h]

theorem loadPlugin_dlopen_only (env : Env) (s : PMState) (n : String)
    (path q : String)
    (hc : containsLoadedRecord s n = false)
    (hs : IsStaticPlugin env.staticPlugins n = false)
    (hd : alookup s.discoveredPlugins n = some path)
    (hq : Event.dlopen q ∈ (loadPlugin env s n).trace) : q = path := by
  rw [loadPlugin_dyn env s n path hc hs hd] at hq
  cases hm : env.modules path with
  | none =>
      rw [loadDyn_dlopenFail env s n path hm] at hq
      simpa using hq
  | some mc =>
      by_cases hcr : mc.hasCreate = true
      · by_cases hnull : mc.createReturnsNull = true
        · rw [loadDyn_nullCreate env s n path mc hm hcr hnull] at hq
          simpa using hq
        · rw [Bool.not_eq_true] at hnull
          rw [loadDyn_create env s n path mc hm hcr hnull] at hq
          cases hres : mc.behavior.initResult with
          | ok =>
              rw [finishLoad_ok_trace _ n _ _ _ rfl hres] at hq
              simpa using hq
          | err e =>
              rw [finishLoad_err _ n _ _ _ e rfl hres] at hq
              simpa using hq
          | exn =>
              rw [finishLoad_exn _ n _ _ _ rfl hres] at hq
              simpa using hq
      · rw [Bool.not_eq_true] at hcr
        rw [loadDyn_noCreate env s n path mc hm hcr] at hq
        simpa using hq

/-! ### Static branch characterization and further support lemmas -/

theorem loadPlugin_static (env : Env) (s : PMState) (n : String)
    (hc : containsLoadedRecord s n = false)
    (hs : IsStaticPlugin env.staticPlugins n = true) :
    loadPlugin env s n = loadStaticBranch env s n := by
  simp [loadPlugin, hc, hs]

/-- The record the static branch builds right after a successful create. -/
def staticRecord (s : PMState) (entry : StaticPluginEntry) : LoadedPlugin :=
  { inst := s.nextPtr
    handle := none
    path := "<static>"
    metadata := entry.metadata
    isInit := false
    isReady := false
    isLoaded := true }

theorem loadStatic_noEntry (env : Env) (s : PMState) (n : String)
    (hf : env.staticPlugins.find? (fun e => e.name == n) = none) :
    loadStaticBranch env s n =
      ⟨Outcome.err ⟨DracErrorCode.InternalError,
        "Failed to create static plugin instance for '" ++ n ++ "'"⟩, s, []⟩ := by
  simp [loadStaticBranch, hf]

theorem loadStatic_null (env : Env) (s : PMState) (n : String)
    (entry : StaticPluginEntry)
    (hf : env.staticPlugins.find? (fun e => e.name == n) = some entry)
    (hnull : entry.createReturnsNull = true) :
    loadStaticBranch env s n =
      ⟨Outcome.err ⟨DracErrorCode.InternalError,
        "Failed to create static plugin instance for '" ++ n ++ "'"⟩, s, []⟩ := by
  simp [loadStaticBranch, hf, hnull]

theorem loadStatic_create (env : Env) (s : PMState) (n : String)
    (entry : StaticPluginEntry)
    (hf : env.staticPlugins.find? (fun e => e.name == n) = some entry)
    (hnull : entry.createReturnsNull = false) :
    loadStaticBranch env s n =
      finishLoad { s with nextPtr := s.nextPtr + 1 } n (staticRecord s entry)
        entry.behavior [] := by
  simp [loadStaticBranch, hf, hnull, staticRecord]

theorem loadPlugin_ok_loaded (env : Env) (s : PMState) (n : String) (hWf : Wf s)
    (hok : (loadPlugin env s n).out = Outcome.ok) :
    containsLoadedRecord (loadPlugin env s n).state n = true := by
  by_cases hc : containsLoadedRecord s n = true
  · rw [loadPlugin_already env s n hc]
    exact hc
  · rw [Bool.not_eq_true] at hc
    have habs := absent_of_not_containsLoaded s n hWf hc
    have hstep :
        ∀ s₁ lp beh tr, alookup s₁.plugins n = none → lp.isInit = false →
          lp.isLoaded = true →
          (finishLoad s₁ n lp beh tr).out = Outcome.ok →
          containsLoadedRecord (finishLoad s₁ n lp beh tr).state n = true := by
      intro s₁ lp beh tr habs₁ hinit hld hok₁
      cases hres : beh.initResult with
      | exn =>
          rw [finishLoad_exn s₁ n lp beh tr hinit hres] at hok₁
          cases hok₁
      | err e =>
          rw [finishLoad_err s₁ n lp beh tr e hinit hres] at hok₁
          cases hok₁
      | ok =>
          unfold containsLoadedRecord lookupRecord
          rw [finishLoad_ok_plugins s₁ n lp beh tr hinit hres]
          rw [alookup_emplace_self habs₁]
          exact hld
    by_cases hst : IsStaticPlugin env.staticPlugins n = true
    · rw [loadPlugin_static env s n hc hst] at hok ⊢
      cases hf : env.staticPlugins.find? (fun e => e.name == n) with
      | none =>
          rw [loadStatic_noEntry env s n hf] at hok
          cases hok
      | some entry =>
          by_cases hnull : entry.createReturnsNull = true
          · rw [loadStatic_null env s n entry hf hnull] at hok
            cases hok
          · rw [Bool.not_eq_true] at hnull
            rw [loadStatic_create env s n entry hf hnull] at hok ⊢
            exact hstep _ _ _ _ habs rfl rfl hok
    · rw [Bool.not_eq_true] at hst
      cases hd : alookup s.discoveredPlugins n with
      | none =>
          rw [loadPlugin_notFoundCase env s n hc hst hd] at hok
          cases hok
      | some path =>
          rw [loadPlugin_dyn env s n path hc hst hd] at hok ⊢
          cases hm : env.modules path with
          | none =>
              rw [loadDyn_dlopenFail env s n path hm] at hok
              cases hok
          | some mc =>
              by_cases hcr : mc.hasCreate = true
              · by_cases hnull : mc.createReturnsNull = true
                · rw [loadDyn_nullCreate env s n path mc hm hcr hnull] at hok
                  cases hok
                · rw [Bool.not_eq_true] at hnull
                  rw [loadDyn_create env s n path mc hm hcr hnull] at hok ⊢
                  exact hstep _ _ _ _ habs rfl rfl hok
              · rw [Bool.not_eq_true] at hcr
                rw [loadDyn_noCreate env s n path mc hm hcr] at hok
                cases hok

theorem countP_key_le_one {l : List (String × LoadedPlugin)}
    (h : (l.map Prod.fst).Nodup) (n : String) :
    l.countP (fun kv => kv.1 == n) ≤ 1 := by
  induction l with
  | nil => simp
  | cons kv l ih =>
      simp only [List.map_cons, List.nodup_cons] at h
      rw [List.countP_cons]
      by_cases he : kv.1 = n
      · have hz : l.countP (fun kv => kv.1 == n) = 0 := by
          rw [List.countP_eq_zero]
          intro kv₂ h₂ hbeq
          exact h.1 (by
            rw [he]
            exact List.mem_map.mpr ⟨kv₂, h₂, by simpa using hbeq⟩)
        simp [hz, he]
      · have hb : (kv.1 == n) = false := by simpa using he
        simp only [hb, if_neg, Bool.false_eq_true, Nat.add_zero, not_false_eq_true]
        exact ih h.2

theorem countP_key_pos {l : List (String × LoadedPlugin)} {n : String}
    {lp : LoadedPlugin} (h : (n, lp) ∈ l) :
    0 < l.countP (fun kv => kv.1 == n) := by
  rw [List.countP_pos_iff]
  exact ⟨(n, lp), h, by simp⟩

theorem mem_insertByName {m x : PluginMetadata} {l : List PluginMetadata} :
    m ∈ insertByName x l ↔ m = x ∨ m ∈ l := by
  induction l with
  | nil => simp [insertByName]
  | cons y l ih =>
      unfold insertByName
      by_cases hlt : x.name < y.name
      · simp [hlt]
      · simp only [hlt, if_neg, not_false_eq_true, List.mem_cons, ih]
        tauto

theorem mem_sortByName {m : PluginMetadata} {l : List PluginMetadata} :
    m ∈ sortByName l ↔ m ∈ l := by
  induction l with
  | nil => simp [sortByName]
  | cons x l ih =>
      unfold sortByName
      rw [mem_insertByName, ih]
      simp

theorem nextPtr_not_in_views (s : PMState) (hWf : Wf s) :
    s.nextPtr ∉ s.systemInfoPlugins ∧ s.nextPtr ∉ s.outputFormatPlugins := by
  constructor <;> intro hmem
  · rcases hWf.sysView _ hmem with ⟨kv, hkv, hinst, _, _⟩
    exact absurd hinst (Nat.ne_of_lt (hWf.instLt kv hkv))
  · rcases hWf.outView _ hmem with ⟨kv, hkv, hinst, _, _⟩
    exact absurd hinst (Nat.ne_of_lt (hWf.instLt kv hkv))

theorem unload_removes_inst (env : Env) (s : PMState) (n : String)
    (lp : LoadedPlugin) (hWf : Wf s) (hl : lookupRecord s n = some lp) :
    lp.inst ∉ (unloadPlugin env s n).state.systemInfoPlugins ∧
    lp.inst ∉ (unloadPlugin env s n).state.outputFormatPlugins := by
  have hpost := Wf_unloadPlugin env s n hWf
  have hplug := (unloadPlugin_found env s n lp hl).2
  have hmem : (n, lp) ∈ s.plugins := mem_of_alookup_eq_some hl
  constructor <;> intro hv
  · rcases hpost.sysView _ hv with ⟨kv, hkv, hinst, _, _⟩
    rw [hplug] at hkv
    have hkv₂ := mem_eraseKey.mp hkv
    have heq : kv = (n, lp) :=
      inst_injective_of_nodup hWf.instNodup kv hkv₂.1 (n, lp) hmem hinst
    exact hkv₂.2 (by rw [heq])
  · rcases hpost.outView _ hv with ⟨kv, hkv, hinst, _, _⟩
    rw [hplug] at hkv
    have hkv₂ := mem_eraseKey.mp hkv
    have heq : kv = (n, lp) :=
      inst_injective_of_nodup hWf.instNodup kv hkv₂.1 (n, lp) hmem hinst
    exact hkv₂.2 (by rw [heq])

/-- Well-formedness of a fresh manager with prefilled discovery data (used by
concrete test states). -/
theorem Wf_fresh (d : List (String × String)) (paths : List String) :
    Wf { initState with discoveredPlugins := d, pluginSearchPaths := paths } := by
  refine ⟨?_, ?_, ?_, ?_, ?_, ?_⟩ <;> simp [initState]

/-! ### Concrete test data -/

/-- Metadata constructor for concrete test instances. -/
def mkMeta (n : String) (t : PluginType) : PluginMetadata :=
  { name := n
    version := "1.0"
    author := "a"
    description := "d"
    type := t
    dependencies := {} }

/-! ### Claims -/

/-- C2: if `loadPlugin` fails while loading the dynamic library (`dlopen`
returns null), while resolving the `CreatePlugin` factory symbol, or because
the create factory returned a null instance, then the call propagates an
`InternalError` and the whole manager state — in particular the registry — is
unchanged: no `LoadedPluginRecord` is inserted for the name. -/
theorem loadPlugin_resolutionFailure_noInsert (env : Env) (s : PMState)
    (n path : String)
    (hc : containsLoadedRecord s n = false)
    (hs : IsStaticPlugin env.staticPlugins n = false)
    (hd : alookup s.discoveredPlugins n = some path)
    (hfail : env.modules path = none ∨
      ∃ mc, env.modules path = some mc ∧
        (mc.hasCreate = false ∨ mc.createReturnsNull = true)) :
    (loadPlugin env s n).state = s ∧
    ∃ e, (loadPlugin env s n).out = Outcome.err e ∧
      e.code = DracErrorCode.InternalError := by
  rw [loadPlugin_dyn env s n path hc hs hd]
  rcases hfail with hm | ⟨mc, hm, hcase⟩
  · rw [loadDyn_dlopenFail env s n path hm]
    exact ⟨rfl, _, rfl, rfl⟩
  · rcases hcase with hcr | hnull
    · rw [loadDyn_noCreate env s n path mc hm hcr]
      exact ⟨rfl, _, rfl, rfl⟩
    · by_cases hcr : mc.hasCreate = true
      · rw [loadDyn_nullCreate env s n path mc hm hcr hnull]
        exact ⟨rfl, _, rfl, rfl⟩
      · rw [Bool.not_eq_true] at hcr
        rw [loadDyn_noCreate env s n path mc hm hcr]
        exact ⟨rfl, _, rfl, rfl⟩

def envC2 : Env :=
  { staticPlugins := []
    dirs := fun _ => none
    modules := fun _ => none }

def sC2 : PMState :=
  { initState with discoveredPlugins := [("w", "/plugs/w.so")] }

theorem loadPlugin_resolutionFailure_noInsert_witness :
    (loadPlugin envC2 sC2 "w").state = sC2 ∧
    ∃ e, (loadPlugin envC2 sC2 "w").out = Outcome.err e ∧
      e.code = DracErrorCode.InternalError :=
  loadPlugin_resolutionFailure_noInsert envC2 sC2 "w" "/plugs/w.so"
    rfl rfl rfl (Or.inl rfl)

/-- C4: a dynamic plugin whose `initialize` returns an error is still
inserted: `loadPlugin` returns exactly the initialization error, the record
is present and `isLoaded` with `isReady = false`, its metadata shows up in
`listLoadedPlugins`, and its instance is excluded from both type-indexed
views. -/
theorem loadPlugin_initFailure_observable (env : Env) (s : PMState)
    (n path : String) (mc : ModuleCode) (e : DracError)
    (hWf : Wf s)
    (habs : lookupRecord s n = none)
    (hs : IsStaticPlugin env.staticPlugins n = false)
    (hd : alookup s.discoveredPlugins n = some path)
    (hm : env.modules path = some mc)
    (hcr : mc.hasCreate = true)
    (hnull : mc.createReturnsNull = false)
    (hres : mc.behavior.initResult = Outcome.err e) :
    (loadPlugin env s n).out = Outcome.err e ∧
    lookupRecord (loadPlugin env s n).state n = some (dynRecord s path mc) ∧
    (dynRecord s path mc).isLoaded = true ∧
    (dynRecord s path mc).isReady = false ∧
    mc.metadata ∈ listLoadedPlugins (loadPlugin env s n).state ∧
    (dynRecord s path mc).inst ∉ getInfoProviderPlugins (loadPlugin env s n).state ∧
    (dynRecord s path mc).inst ∉ getOutputFormatPlugins (loadPlugin env s n).state := by
  have hc : containsLoadedRecord s n = false := by
    unfold containsLoadedRecord
    rw [habs]
  have habs₂ : alookup s.plugins n = none := habs
  rw [loadPlugin_dyn env s n path hc hs hd,
      loadDyn_create env s n path mc hm hcr hnull,
      finishLoad_err _ n _ _ _ e rfl hres]
  refine ⟨rfl, ?_, rfl, rfl, ?_, ?_, ?_⟩
  · exact alookup_emplace_self habs₂ _
  · unfold listLoadedPlugins
    rw [mem_sortByName]
    dsimp only []
    rw [emplace_of_absent habs₂, List.filter_append, List.map_append]
    refine List.mem_append_right _ ?_
    simp
    exact ⟨n, _, ⟨⟨rfl, rfl⟩, rfl⟩, rfl⟩
  · exact (nextPtr_not_in_views s hWf).1
  · exact (nextPtr_not_in_views s hWf).2

def mcC4 : ModuleCode :=
  { hasCreate := true
    createReturnsNull := false
    hasDestroy := true
    metadata := mkMeta "sad" PluginType.SystemInfo
    behavior :=
      { initResult := Outcome.err ⟨DracErrorCode.ApiUnavailable, "no api"⟩
        readyAfterInit := true
        castOk := true } }

def envC4 : Env :=
  { staticPlugins := []
    dirs := fun _ => none
    modules := fun p => if p == "/plugs/sad.so" then some mcC4 else none }

def sC4 : PMState :=
  { initState with discoveredPlugins := [("sad", "/plugs/sad.so")] }

theorem loadPlugin_initFailure_observable_witness :
    (loadPlugin envC4 sC4 "sad").out =
      Outcome.err ⟨DracErrorCode.ApiUnavailable, "no api"⟩ ∧
    lookupRecord (loadPlugin envC4 sC4 "sad").state "sad" =
      some (dynRecord sC4 "/plugs/sad.so" mcC4) ∧
    (dynRecord sC4 "/plugs/sad.so" mcC4).isLoaded = true ∧
    (dynRecord sC4 "/plugs/sad.so" mcC4).isReady = false ∧
    mcC4.metadata ∈ listLoadedPlugins (loadPlugin envC4 sC4 "sad").state ∧
    (dynRecord sC4 "/plugs/sad.so" mcC4).inst ∉
      getInfoProviderPlugins (loadPlugin envC4 sC4 "sad").state ∧
    (dynRecord sC4 "/plugs/sad.so" mcC4).inst ∉
      getOutputFormatPlugins (loadPlugin envC4 sC4 "sad").state :=
  loadPlugin_initFailure_observable envC4 sC4 "sad" "/plugs/sad.so" mcC4
    ⟨DracErrorCode.ApiUnavailable, "no api"⟩
    (Wf_fresh [("sad", "/plugs/sad.so")] []) rfl rfl rfl rfl rfl rfl rfl

/-- C5 (amended): an exception thrown by a plugin instance during its
`initialize` call is *not* caught by the manager — there is no try/catch in
`PluginManager::initializePluginInstance` — so the exception propagates out
of `loadPlugin`; no record is inserted, the instance is freed by the host's
`delete` during stack unwinding, and the module handle is never closed. -/
theorem loadPlugin_initThrows_propagates (env : Env) (s : PMState)
    (n path : String) (mc : ModuleCode)
    (hc : containsLoadedRecord s n = false)
    (hs : IsStaticPlugin env.staticPlugins n = false)
    (hd : alookup s.discoveredPlugins n = some path)
    (hm : env.modules path = some mc)
    (hcr : mc.hasCreate = true)
    (hnull : mc.createReturnsNull = false)
    (hres : mc.behavior.initResult = Outcome.exn) :
    (loadPlugin env s n).out = Outcome.exn ∧
    (loadPlugin env s n).state.plugins = s.plugins ∧
    Event.destroyedViaDelete s.nextPtr ∈ (loadPlugin env s n).trace ∧
    ∀ h, Event.dlclose h ∉ (loadPlugin env s n).trace := by
  rw [loadPlugin_dyn env s n path hc hs hd,
      loadDyn_create env s n path mc hm hcr hnull,
      finishLoad_exn _ n _ _ _ rfl hres]
  refine ⟨rfl, rfl, ?_, ?_⟩
  · simp [dynRecord]
  · intro h
    simp

def mcC5 : ModuleCode :=
  { hasCreate := true
    createReturnsNull := false
    hasDestroy := true
    metadata := mkMeta "boom" PluginType.SystemInfo
    behavior :=
      { initResult := Outcome.exn
        readyAfterInit := true
        castOk := true } }

def envC5 : Env :=
  { staticPlugins := []
    dirs := fun _ => none
    modules := fun p => if p == "/plugs/boom.so" then some mcC5 else none }

def sC5 : PMState :=
  { initState with discoveredPlugins := [("boom", "/plugs/boom.so")] }

/-- Whether an operation outcome is an error result at all. -/
def isErrResult (o : Outcome) : Bool :=
  match o with
  | Outcome.err _ => true
  | _ => false

/-- C5 counterexample: for the concrete plugin `boom` whose `initialize`
throws, `loadPlugin` does not return an error result of kind `Other` (or any
error result at all) — the exception escapes `loadPlugin`, contradicting the
claim that the manager catches it at the call site and converts it. -/
theorem loadPlugin_initThrows_uncaught_cex :
    (loadPlugin envC5 sC5 "boom").out = Outcome.exn ∧
    isErrResult (loadPlugin envC5 sC5 "boom").out = false :=
  ⟨rfl, rfl⟩

theorem loadPlugin_initThrows_propagates_witness :
    (loadPlugin envC5 sC5 "boom").out = Outcome.exn ∧
    (loadPlugin envC5 sC5 "boom").state.plugins = sC5.plugins ∧
    Event.destroyedViaDelete sC5.nextPtr ∈ (loadPlugin envC5 sC5 "boom").trace ∧
    ∀ h, Event.dlclose h ∉ (loadPlugin envC5 sC5 "boom").trace :=
  loadPlugin_initThrows_propagates envC5 sC5 "boom" "/plugs/boom.so" mcC5
    rfl rfl rfl rfl rfl rfl rfl

/-- C9: a name that is neither a registered static plugin nor present in the
discovered-path map and has no record in the registry makes `loadPlugin` and
`unloadPlugin` fail with `NotFound`, leaving the whole manager state — the
registry, the discovered-path map and both type-indexed views — unchanged. -/
theorem unknownName_notFound_unchanged (env : Env) (s : PMState) (n : String)
    (hs : IsStaticPlugin env.staticPlugins n = false)
    (hd : alookup s.discoveredPlugins n = none)
    (hr : lookupRecord s n = none) :
    loadPlugin env s n =
      ⟨Outcome.err ⟨DracErrorCode.NotFound,
        "Plugin '" ++ n ++ "' not found in search paths."⟩, s, []⟩ ∧
    unloadPlugin env s n =
      ⟨Outcome.err ⟨DracErrorCode.NotFound,
        "Plugin '" ++ n ++ "' is not loaded."⟩, s, []⟩ := by
  have hc : containsLoadedRecord s n = false := by
    unfold containsLoadedRecord
    rw [hr]
  exact ⟨loadPlugin_notFoundCase env s n hc hs hd,
    unloadPlugin_notFound env s n hr⟩

def envC9 : Env :=
  { staticPlugins := []
    dirs := fun _ => none
    modules := fun _ => none }

theorem unknownName_notFound_unchanged_witness :
    loadPlugin envC9 initState "does-not-exist" =
      ⟨Outcome.err ⟨DracErrorCode.NotFound,
        "Plugin '" ++ "does-not-exist" ++ "' not found in search paths."⟩,
       initState, []⟩ ∧
    unloadPlugin envC9 initState "does-not-exist" =
      ⟨Outcome.err ⟨DracErrorCode.NotFound,
        "Plugin '" ++ "does-not-exist" ++ "' is not loaded."⟩,
       initState, []⟩ :=
  unknownName_notFound_unchanged envC9 initState "does-not-exist" rfl rfl rfl

/-- C10: `getPlugin` answers from the registry alone: whenever a record
exists for the name it returns that record's raw instance pointer, with no
regard to `isReady`/`isInitialized`; it returns `none` exactly when no record
exists.  In particular a plugin whose `initialize` failed — which both
type-indexed views exclude — is still reachable through `getPlugin`. -/
theorem getPlugin_ignores_readiness (s : PMState) (n : String) :
    (∀ lp, lookupRecord s n = some lp → getPlugin s n = some lp.inst) ∧
    (lookupRecord s n = none → getPlugin s n = none) ∧
    (∀ env path mc e, lookupRecord s n = none →
      IsStaticPlugin env.staticPlugins n = false →
      alookup s.discoveredPlugins n = some path →
      env.modules path = some mc →
      mc.hasCreate = true → mc.createReturnsNull = false →
      mc.behavior.initResult = Outcome.err e →
      getPlugin (loadPlugin env s n).state n = some (dynRecord s path mc).inst ∧
      (dynRecord s path mc).isReady = false ∧
      (dynRecord s path mc).isInit = false) := by
  refine ⟨?_, ?_, ?_⟩
  · intro lp hl
    unfold getPlugin
    rw [hl]
    rfl
  · intro hl
    unfold getPlugin
    rw [hl]
    rfl
  · intro env path mc e habs hs hd hm hcr hnull hres
    have hc : containsLoadedRecord s n = false := by
      unfold containsLoadedRecord
      rw [habs]
    have habs₂ : alookup s.plugins n = none := habs
    rw [loadPlugin_dyn env s n path hc hs hd,
        loadDyn_create env s n path mc hm hcr hnull,
        finishLoad_err _ n _ _ _ e rfl hres]
    refine ⟨?_, rfl, rfl⟩
    unfold getPlugin lookupRecord
    dsimp only []
    rw [alookup_emplace_self habs₂]
    rfl

def mcC10 : ModuleCode :=
  { hasCreate := true
    createReturnsNull := false
    hasDestroy := true
    metadata := mkMeta "g" PluginType.OutputFormat
    behavior :=
      { initResult := Outcome.err ⟨DracErrorCode.Other, "init failed"⟩
        readyAfterInit := true
        castOk := true } }

def envC10 : Env :=
  { staticPlugins := []
    dirs := fun _ => none
    modules := fun p => if p == "/plugs/g.so" then some mcC10 else none }

def sC10 : PMState :=
  { initState with discoveredPlugins := [("g", "/plugs/g.so")] }

theorem getPlugin_ignores_readiness_witness :
    (∀ lp, lookupRecord sC10 "g" = some lp →
      getPlugin sC10 "g" = some lp.inst) ∧
    (lookupRecord sC10 "g" = none → getPlugin sC10 "g" = none) ∧
    (∀ env path mc e, lookupRecord sC10 "g" = none →
      IsStaticPlugin env.staticPlugins "g" = false →
      alookup sC10.discoveredPlugins "g" = some path →
      env.modules path = some mc →
      mc.hasCreate = true → mc.createReturnsNull = false →
      mc.behavior.initResult = Outcome.err e →
      getPlugin (loadPlugin env sC10 "g").state "g" =
        some (dynRecord sC10 path mc).inst ∧
      (dynRecord sC10 path mc).isReady = false ∧
      (dynRecord sC10 path mc).isInit = false) :=
  getPlugin_ignores_readiness sC10 "g"

/-- C1 (amended): when a loaded dynamic plugin's module does not export the
`DestroyPlugin` symbol, `unloadPlugin` logs the failure and falls back to the
host's generic `delete` on the instance, never a module destroy call; it then
closes the library, erases the record, and reports success (it does not fail
with `InternalError`, and the record does not remain). -/
theorem unloadPlugin_missingDestroy_fallback (env : Env) (s : PMState)
    (n mh : String) (lp : LoadedPlugin) (mc : ModuleCode)
    (hl : lookupRecord s n = some lp)
    (hh : lp.handle = some mh)
    (hm : env.modules mh = some mc)
    (hdes : mc.hasDestroy = false) :
    (unloadPlugin env s n).out = Outcome.ok ∧
    Event.destroyedViaDelete lp.inst ∈ (unloadPlugin env s n).trace ∧
    (∀ h₂ p₂, Event.destroyedViaModule h₂ p₂ ∉ (unloadPlugin env s n).trace) ∧
    lookupRecord (unloadPlugin env s n).state n = none := by
  have hfound := unloadPlugin_found env s n lp hl
  have htr : (unloadPlugin env s n).trace =
      (if lp.isReady then [Event.shutdownCalled lp.inst] else []) ++
      ([Event.destroyedViaDelete lp.inst] ++ [Event.dlclose mh]) := by
    unfold unloadPlugin
    rw [hl]
    dsimp only []
    rw [hh]
    dsimp only []
    rw [hm]
    dsimp only []
    rw [hdes]
    simp only [Bool.false_eq_true, if_false]
    rw [List.append_assoc]
  refine ⟨hfound.1, ?_, ?_, ?_⟩
  · rw [htr]
    by_cases hr : lp.isReady = true <;> simp [hr]
  · intro h₂ p₂ hmem
    rw [htr] at hmem
    by_cases hr : lp.isReady = true <;> simp [hr] at hmem
  · unfold lookupRecord
    rw [hfound.2]
    exact alookup_eraseKey_self s.plugins n

def mcC1 : ModuleCode :=
  { hasCreate := true
    createReturnsNull := false
    hasDestroy := false
    metadata := mkMeta "p" PluginType.SystemInfo
    behavior :=
      { initResult := Outcome.ok
        readyAfterInit := true
        castOk := true } }

def envC1 : Env :=
  { staticPlugins := []
    dirs := fun _ => none
    modules := fun p => if p == "/plugs/p.so" then some mcC1 else none }

def sC1 : PMState :=
  { initState with discoveredPlugins := [("p", "/plugs/p.so")] }

def sC1loaded : PMState := (loadPlugin envC1 sC1 "p").state

/-- The record `loadPlugin` leaves behind for the concrete plugin `p`. -/
def lpC1 : LoadedPlugin :=
  { inst := 0
    handle := some "/plugs/p.so"
    path := "/plugs/p.so"
    metadata := mkMeta "p" PluginType.SystemInfo
    isInit := true
    isReady := true
    isLoaded := true }

/-- C1 counterexample: the concrete dynamic plugin `p` loads successfully,
its module exports no `DestroyPlugin` symbol, and yet `unloadPlugin` returns
success rather than `InternalError`, destroys the instance through the
generic `delete`, and removes the record from the registry — each point
contradicting the claim. -/
theorem unloadPlugin_missingDestroy_cex :
    (loadPlugin envC1 sC1 "p").out = Outcome.ok ∧
    (unloadPlugin envC1 sC1loaded "p").out = Outcome.ok ∧
    Event.destroyedViaDelete 0 ∈ (unloadPlugin envC1 sC1loaded "p").trace ∧
    lookupRecord (unloadPlugin envC1 sC1loaded "p").state "p" = none := by
  refine ⟨rfl, rfl, ?_, rfl⟩
  show Event.destroyedViaDelete 0 ∈
    [Event.shutdownCalled 0, Event.destroyedViaDelete 0,
     Event.dlclose "/plugs/p.so"]
  simp

theorem unloadPlugin_missingDestroy_fallback_witness :
    (unloadPlugin envC1 sC1loaded "p").out = Outcome.ok ∧
    Event.destroyedViaDelete lpC1.inst ∈ (unloadPlugin envC1 sC1loaded "p").trace ∧
    (∀ h₂ p₂, Event.destroyedViaModule h₂ p₂ ∉
      (unloadPlugin envC1 sC1loaded "p").trace) ∧
    lookupRecord (unloadPlugin envC1 sC1loaded "p").state "p" = none :=
  unloadPlugin_missingDestroy_fallback envC1 sC1loaded "p" "/plugs/p.so"
    lpC1 mcC1 rfl rfl rfl rfl

/-- C3: in every state reachable by any sequence of manager calls, every
pointer held in the SystemInfo or OutputFormat type-indexed view is the
instance pointer of a record currently in the registry with
`isLoaded && isReady`; and whenever `unloadPlugin` takes a record out, that
same call leaves the record's pointer in neither view. -/
theorem view_invariant_reachable (env : Env) (s : PMState)
    (hre : Reachable env s) :
    (∀ p ∈ getInfoProviderPlugins s, ∃ kv ∈ s.plugins,
        kv.2.inst = p ∧ kv.2.isLoaded = true ∧ kv.2.isReady = true) ∧
    (∀ p ∈ getOutputFormatPlugins s, ∃ kv ∈ s.plugins,
        kv.2.inst = p ∧ kv.2.isLoaded = true ∧ kv.2.isReady = true) ∧
    (∀ n lp, lookupRecord s n = some lp →
      lp.inst ∉ (unloadPlugin env s n).state.systemInfoPlugins ∧
      lp.inst ∉ (unloadPlugin env s n).state.outputFormatPlugins) := by
  have hWf := Wf_reachable env s hre
  refine ⟨?_, ?_, ?_⟩
  · intro p hp
    rcases hWf.sysView p hp with ⟨kv, hkv, hinst, hready, _⟩
    exact ⟨kv, hkv, hinst, hWf.loaded kv hkv, hready⟩
  · intro p hp
    rcases hWf.outView p hp with ⟨kv, hkv, hinst, hready, _⟩
    exact ⟨kv, hkv, hinst, hWf.loaded kv hkv, hready⟩
  · intro n lp hl
    exact unload_removes_inst env s n lp hWf hl

def mcC3 : ModuleCode :=
  { hasCreate := true
    createReturnsNull := false
    hasDestroy := true
    metadata := mkMeta "p3" PluginType.SystemInfo
    behavior :=
      { initResult := Outcome.ok
        readyAfterInit := true
        castOk := true } }

def envC3 : Env :=
  { staticPlugins := []
    dirs := fun d => if d == "/sp" then some [⟨"p3", ".so", true⟩] else none
    modules := fun p => if p == "/sp/p3.so" then some mcC3 else none }

def sC3 : PMState :=
  applyOp envC3
    (applyOp envC3 (applyOp envC3 initState (Op.addPath "/sp")) Op.scan)
    (Op.load "p3")

theorem view_invariant_reachable_witness :
    (∀ p ∈ getInfoProviderPlugins sC3, ∃ kv ∈ sC3.plugins,
        kv.2.inst = p ∧ kv.2.isLoaded = true ∧ kv.2.isReady = true) ∧
    (∀ p ∈ getOutputFormatPlugins sC3, ∃ kv ∈ sC3.plugins,
        kv.2.inst = p ∧ kv.2.isLoaded = true ∧ kv.2.isReady = true) ∧
    (∀ n lp, lookupRecord sC3 n = some lp →
      lp.inst ∉ (unloadPlugin envC3 sC3 n).state.systemInfoPlugins ∧
      lp.inst ∉ (unloadPlugin envC3 sC3 n).state.outputFormatPlugins) :=
  view_invariant_reachable envC3 sC3
    (Reachable.step _ _ (Reachable.step _ _ (Reachable.step _ _ Reachable.init)))

/-- C6: with search path `A` registered before `B` and both containing a
module file whose stem derives the same plugin name, `scanForPlugins` records
the path under `A` for that name (first occurrence in registration order
wins), so a subsequent `loadPlugin` of the name opens `A`'s module file —
every `dlopen` it performs targets `A`'s path, never `B`'s. -/
theorem firstSearchPathWins (env : Env) (s : PMState) (n A B : String)
    (entriesA entriesB : List DirEntry) (eA eB : DirEntry)
    (hpaths : s.pluginSearchPaths = [A, B])
    (hdirA : env.dirs A = some entriesA)
    (hdirB : env.dirs B = some entriesB)
    (hfindA : entriesA.find? (fun e =>
        (e.isRegularFile && e.ext == PLUGIN_EXTENSION) && e.stem == n) = some eA)
    (hfindB : entriesB.find? (fun e =>
        (e.isRegularFile && e.ext == PLUGIN_EXTENSION) && e.stem == n) = some eB)
    (hc : containsLoadedRecord (scanForPlugins env s) n = false)
    (hs : IsStaticPlugin env.staticPlugins n = false) :
    alookup (scanForPlugins env s).discoveredPlugins n =
      some (A ++ "/" ++ eA.stem ++ eA.ext) ∧
    ∀ q, Event.dlopen q ∈ (loadPlugin env (scanForPlugins env s) n).trace →
      q = A ++ "/" ++ eA.stem ++ eA.ext := by
  have hdisc : alookup (scanForPlugins env s).discoveredPlugins n =
      some (A ++ "/" ++ eA.stem ++ eA.ext) := by
    rw [scan_alookup, hpaths]
    unfold firstDiscovery
    rw [hdirA]
    dsimp only []
    unfold firstMatchIn
    rw [hfindA]
    rfl
  exact ⟨hdisc, fun q hq =>
    loadPlugin_dlopen_only env (scanForPlugins env s) n _ q hc hs hdisc hq⟩

def envC6 : Env :=
  { staticPlugins := []
    dirs := fun d =>
      if d == "/a" then some [⟨"p6", ".so", true⟩]
      else if d == "/b" then some [⟨"p6", ".so", true⟩]
      else none
    modules := fun _ => none }

def sC6 : PMState :=
  { initState with pluginSearchPaths := ["/a", "/b"] }

theorem firstSearchPathWins_witness :
    alookup (scanForPlugins envC6 sC6).discoveredPlugins "p6" =
      some ("/a" ++ "/" ++ "p6" ++ ".so") ∧
    ∀ q, Event.dlopen q ∈ (loadPlugin envC6 (scanForPlugins envC6 sC6) "p6").trace →
      q = "/a" ++ "/" ++ "p6" ++ ".so" :=
  firstSearchPathWins envC6 sC6 "p6" "/a" "/b"
    [⟨"p6", ".so", true⟩] [⟨"p6", ".so", true⟩]
    ⟨"p6", ".so", true⟩ ⟨"p6", ".so", true⟩
    rfl rfl rfl rfl rfl rfl rfl

/-- C7: loading twice in a row: if the first `loadPlugin(p)` on a reachable
state succeeds, the second immediately succeeds as a no-op (the state is
unchanged) and the registry holds exactly one record keyed `p`; moreover in
every reachable state a name keys at most one record. -/
theorem loadPlugin_idempotent_unique (env : Env) (s : PMState) (n : String)
    (hre : Reachable env s) :
    s.plugins.countP (fun kv => kv.1 == n) ≤ 1 ∧
    ((loadPlugin env s n).out = Outcome.ok →
      (loadPlugin env (loadPlugin env s n).state n).out = Outcome.ok ∧
      (loadPlugin env (loadPlugin env s n).state n).state =
        (loadPlugin env s n).state ∧
      (loadPlugin env s n).state.plugins.countP (fun kv => kv.1 == n) = 1) := by
  have hWf := Wf_reachable env s hre
  refine ⟨countP_key_le_one hWf.keysNodup n, ?_⟩
  intro hok
  have hWf₁ := Wf_loadPlugin env s n hWf
  have hc₁ := loadPlugin_ok_loaded env s n hWf hok
  have h₂ := loadPlugin_already env _ n hc₁
  refine ⟨by rw [h₂], by rw [h₂], ?_⟩
  have hle := countP_key_le_one hWf₁.keysNodup n
  unfold containsLoadedRecord at hc₁
  cases hl : lookupRecord (loadPlugin env s n).state n with
  | none =>
      rw [hl] at hc₁
      cases hc₁
  | some lp =>
      have hl₂ : alookup (loadPlugin env s n).state.plugins n = some lp := hl
      have hpos := countP_key_pos (mem_of_alookup_eq_some hl₂)
      omega

def mcC7 : ModuleCode :=
  { hasCreate := true
    createReturnsNull := false
    hasDestroy := true
    metadata := mkMeta "p7" PluginType.SystemInfo
    behavior :=
      { initResult := Outcome.ok
        readyAfterInit := true
        castOk := true } }

def envC7 : Env :=
  { staticPlugins := []
    dirs := fun d => if d == "/sp" then some [⟨"p7", ".so", true⟩] else none
    modules := fun p => if p == "/sp/p7.so" then some mcC7 else none }

def sC7 : PMState :=
  applyOp envC7 (applyOp envC7 initState (Op.addPath "/sp")) Op.scan

theorem loadPlugin_idempotent_unique_witness :
    sC7.plugins.countP (fun kv => kv.1 == "p7") ≤ 1 ∧
    ((loadPlugin envC7 sC7 "p7").out = Outcome.ok →
      (loadPlugin envC7 (loadPlugin envC7 sC7 "p7").state "p7").out = Outcome.ok ∧
      (loadPlugin envC7 (loadPlugin envC7 sC7 "p7").state "p7").state =
        (loadPlugin envC7 sC7 "p7").state ∧
      (loadPlugin envC7 sC7 "p7").state.plugins.countP
        (fun kv => kv.1 == "p7") = 1) :=
  loadPlugin_idempotent_unique envC7 sC7 "p7"
    (Reachable.step _ _ (Reachable.step _ _ Reachable.init))

/-- C8: after a successful `loadPlugin(p)` on a well-formed state, the
subsequent `unloadPlugin(p)` succeeds, `isPluginLoaded(p)` is false
afterwards, and the unloaded record's instance pointer appears in neither
type-indexed view — unload reverses load. -/
theorem unload_reverses_load (env : Env) (s : PMState) (n : String)
    (hWf : Wf s)
    (hok : (loadPlugin env s n).out = Outcome.ok) :
    (unloadPlugin env (loadPlugin env s n).state n).out = Outcome.ok ∧
    isPluginLoaded (unloadPlugin env (loadPlugin env s n).state n).state n
      = false ∧
    ∀ lp, lookupRecord (loadPlugin env s n).state n = some lp →
      lp.inst ∉
        (unloadPlugin env (loadPlugin env s n).state n).state.systemInfoPlugins ∧
      lp.inst ∉
        (unloadPlugin env (loadPlugin env s n).state n).state.outputFormatPlugins := by
  have hWf₁ := Wf_loadPlugin env s n hWf
  have hc₁ := loadPlugin_ok_loaded env s n hWf hok
  unfold containsLoadedRecord at hc₁
  cases hl : lookupRecord (loadPlugin env s n).state n with
  | none =>
      rw [hl] at hc₁
      cases hc₁
  | some lp =>
      have hfound := unloadPlugin_found env _ n lp hl
      refine ⟨hfound.1, ?_, ?_⟩
      · unfold isPluginLoaded containsLoadedRecord lookupRecord
        rw [hfound.2, alookup_eraseKey_self]
      · intro lp₂ hl₂
        injection hl₂ with he
        subst he
        exact unload_removes_inst env _ n lp hWf₁ hl

def mcC8 : ModuleCode :=
  { hasCreate := true
    createReturnsNull := false
    hasDestroy := true
    metadata := mkMeta "p8" PluginType.OutputFormat
    behavior :=
      { initResult := Outcome.ok
        readyAfterInit := true
        castOk := true } }

def envC8 : Env :=
  { staticPlugins := []
    dirs := fun _ => none
    modules := fun p => if p == "/plugs/p8.so" then some mcC8 else none }

def sC8 : PMState :=
  { initState with discoveredPlugins := [("p8", "/plugs/p8.so")] }

theorem unload_reverses_load_witness :
    (unloadPlugin envC8 (loadPlugin envC8 sC8 "p8").state "p8").out =
      Outcome.ok ∧
    isPluginLoaded
      (unloadPlugin envC8 (loadPlugin envC8 sC8 "p8").state "p8").state "p8"
      = false ∧
    ∀ lp, lookupRecord (loadPlugin envC8 sC8 "p8").state "p8" = some lp →
      lp.inst ∉
        (unloadPlugin envC8 (loadPlugin envC8 sC8 "p8").state
          "p8").state.systemInfoPlugins ∧
      lp.inst ∉
        (unloadPlugin envC8 (loadPlugin envC8 sC8 "p8").state
          "p8").state.outputFormatPlugins :=
  unload_reverses_load envC8 sC8 "p8"
    (Wf_fresh [("p8", "/plugs/p8.so")] []) rfl

end Draconis
